import Mathlib

/-!
Verification of the sftp-manager repository's core algorithms against a
shallow embedding of its Rust sources.

The embedding covers:
* the path-jail resolution (`src/sftp/handler.rs`: `normalize_path`,
  `handle_nonexistent_path`, `canonicalize_and_validate`);
* the per-session handle table and the SFTP operations `open`, `close`,
  `read`, `write`, `opendir`, `readdir` (`src/sftp/handler.rs`);
* password authentication (`src/sftp/session.rs`: `auth_password`);
* the shared toggle state and its service layer (`src/models/sftp.rs`,
  `src/services/sftp.rs`);
* one tick of the lifecycle supervisor (`src/services/sftp_lifecycle.rs`).

Filesystem paths are modelled as lists of components; the host filesystem
is an abstract structure `Fs` of query functions (existence, canonical
form, metadata, directory listing, file contents), so the theorems
quantify over every filesystem behaviour.  Machine integers of the source
(`u32`, `u64`, `usize`) are modelled as `Nat`: none of the verified code
performs arithmetic anywhere near overflow (the only arithmetic is a
handle counter increment, list indexing, and timestamp addition).
-/

namespace SftpManager

/-- A single path component, after the component normalization Rust's
`std::path::Path` performs: `".."` is `parentDir`, empty and `"."`
segments are dropped by the parser, anything else is a `normal` name. -/
inductive Comp where
  | parentDir : Comp
  | normal : String → Comp
deriving DecidableEq, Repr

/-- Splits a character list on `/` (the same segments
`String.splitOn "/"` yields, by structural recursion so the kernel can
evaluate it). -/
def splitSlashAux : List Char → List Char → List String
  | [], cur => [String.mk cur.reverse]
  | c :: rest, cur =>
    if c = '/' then String.mk cur.reverse :: splitSlashAux rest []
    else splitSlashAux rest (c :: cur)

/-- Splits a path string on `/` into components, dropping empty and `"."`
segments and mapping `".."` to `Comp.parentDir`, exactly as Rust's
`Path::components` normalizes them. -/
def parseComps (s : String) : List Comp :=
  (splitSlashAux s.toList []).filterMap fun seg =>
    if seg = "" ∨ seg = "." then none
    else if seg = ".." then some Comp.parentDir
    else some (Comp.normal seg)

/-- `str::trim_start_matches('/')`: drop every leading slash. -/
def trimLeadingSlashes (s : String) : String :=
  String.mk (s.toList.dropWhile (fun c => c = '/'))

/-- Rust `Path::file_name`: the final component if it is a normal name,
`none` when the path is the root or ends in `..`. -/
def compFileName (cs : List Comp) : Option String :=
  match cs.getLast? with
  | some (Comp.normal s) => some s
  | _ => none

/-- Metadata the handler reads from a stat call (`fs::metadata`). -/
structure FileMetadata where
  is_dir : Bool
  is_file : Bool
  size : Nat
  uid : Nat
  gid : Nat
  permissions : Nat
  atime : Option Nat
  mtime : Option Nat
deriving DecidableEq, Repr

/-- Result of `fs::read_dir` plus the subsequent `next_entry` loop:
permission denied at open, a failure while iterating entries, or the
materialized entry names. -/
inductive DirListing where
  | denied : DirListing
  | failMid : DirListing
  | ok : List String → DirListing
deriving DecidableEq, Repr

/-- Abstract host filesystem, as the queried snapshot the handler sees.
`pathExists` and `canon` act on raw component paths (which may contain
`..`), mirroring `Path::exists` and `Path::canonicalize` whose behaviour
(symlinks included) is left fully abstract; `metadata`, `listDir` and
`contents` act on the canonical-plus-appended paths `normalize_path`
produces.  `contents` is the byte-content layer used by `open`, `read`
and `write`; writes update it pointwise.  The directory tree itself
(`pathExists`, `canon`, `metadata`, `listDir`) is held fixed across the
operations verified here, none of whose claims depend on `mkdir`-style
mutation of that layer. -/
structure Fs where
  pathExists : List Comp → Bool
  canon : List Comp → Option (List String)
  metadata : List String → Option FileMetadata
  listDir : List String → DirListing
  contents : List String → Option (List Nat)

/-- Error kinds of `std::io::Error` distinguished by the jail code:
`NotFound`, `PermissionDenied`, and everything else (the
`io::Error::other` wrapper and raw canonicalize failures). -/
inductive IoErrorKind where
  | notFound : IoErrorKind
  | permissionDenied : IoErrorKind
  | other : IoErrorKind
deriving DecidableEq, Repr

/-- The `while !current.exists()` loop of `handle_nonexistent_path`, on
the reversed component list (head = deepest component) so that the walk
upward (`current.parent()`) is structural recursion.  Rust pushes each
`file_name` (`none` exactly for a trailing `..`, i.e. a `parentDir`
head here) and reverses at the end; the accumulator here is built
directly in that final re-append order. -/
def collectMissingRev (fs : Fs) : List Comp → List String →
    Option (List Comp × List String)
  | rc, acc =>
    if fs.pathExists rc.reverse then some (rc.reverse, acc)
    else
      match rc with
      | [] => none
      | c :: rest =>
        let acc' :=
          match c with
          | Comp.normal s => s :: acc
          | Comp.parentDir => acc
        collectMissingRev fs rest acc'

/-- The upward walk of `handle_nonexistent_path`: find the closest
existing ancestor of `current`, together with the missing components in
re-append order; `none` when the walk exhausts all parents. -/
def collectMissing (fs : Fs) (current : List Comp) :
    Option (List Comp × List String) :=
  collectMissingRev fs current.reverse []

/-- `SftpSession::handle_nonexistent_path`: find the closest existing
ancestor, canonicalize it, require it to lie under the canonical root,
then re-append the missing components in original order. -/
def handle_nonexistent_path (fs : Fs) (target_path root_path : List Comp) :
    Except IoErrorKind (List String) :=
  match collectMissing fs target_path with
  | none => .error .notFound
  | some (_current, parents_to_create) =>
    match fs.canon _current with
    | none => .error .other
    | some canonical_parent =>
      match fs.canon root_path with
      | none => .error .other
      | some canonical_root =>
        if canonical_root.isPrefixOf canonical_parent then
          .ok (canonical_parent ++ parents_to_create)
        else
          .error .permissionDenied

/-- `SftpSession::canonicalize_and_validate`: canonicalize an existing
path and require it to be equal to or a descendant of the canonical
root. -/
def canonicalize_and_validate (fs : Fs) (target_path root_path : List Comp) :
    Except IoErrorKind (List String) :=
  match fs.canon target_path with
  | none => .error .other
  | some canonical_path =>
    match fs.canon root_path with
    | none => .error .other
    | some canonical_root =>
      if canonical_root.isPrefixOf canonical_path then
        .ok canonical_path
      else
        .error .permissionDenied

/-- `SftpSession::normalize_path`: the path-jail resolution.  Empty or
`/` resolves to the canonical root; otherwise the client path (leading
slashes stripped) is joined onto the root and dispatched to the
existing-path or nonexistent-path branch. -/
def normalize_path (fs : Fs) (root_dir path : String) :
    Except IoErrorKind (List String) :=
  let root_path := parseComps root_dir
  if path = "" ∨ path = "/" then
    match fs.canon root_path with
    | some p => .ok p
    | none => .error .notFound
  else
    let trimmed_path := trimLeadingSlashes path
    let target_path := root_path ++ parseComps trimmed_path
    if fs.pathExists target_path then
      canonicalize_and_validate fs target_path root_path
    else
      handle_nonexistent_path fs target_path root_path

/-- A tiny concrete filesystem: only `/data` exists, canonicalizing to
`["data"]`; everything else is absent. -/
def sampleFs : Fs where
  pathExists := fun p => p = [Comp.normal "data"]
  canon := fun p =>
    if p = [Comp.normal "data"] then some ["data"] else none
  metadata := fun _ => none
  listDir := fun _ => .denied
  contents := fun _ => none

/-! ## Shared toggle state (`src/models/sftp.rs`) and its service layer
(`src/services/sftp.rs`)

The Rust `SftpState` holds its four fields in four separate
`Arc<RwLock<_>>` cells.  The model is the record of the four values; each
method of `SftpState` reads or writes fields exactly as the source does.
`SystemTime` is modelled as a `Nat` of seconds, with `now` passed in
explicitly; the randomly generated credentials are likewise passed in. -/

/-- `SftpCredentials` (`src/models/sftp.rs`). -/
structure SftpCredentials where
  username : String
  password : String
deriving DecidableEq, Repr

/-- The four values held by `SftpState`'s four `RwLock` cells. -/
structure SftpState where
  enabled : Bool
  expiration : Option Nat
  credentials : Option SftpCredentials
  root_dir : String
deriving DecidableEq, Repr

/-- `SftpState::new`. -/
def SftpState.new (root_dir : String) : SftpState :=
  { enabled := false, expiration := none, credentials := none, root_dir }

/-- `SftpState::is_enabled`. -/
def SftpState.is_enabled (st : SftpState) : Bool :=
  st.enabled

/-- `SftpState::enable`: sets `enabled := true`, stores the credentials
and the expiration.  (In the source these are three separate lock
acquisitions; `enableStepsTo` below exposes that decomposition.) -/
def SftpState.enable (st : SftpState) (credentials : SftpCredentials)
    (expiration : Option Nat) : SftpState :=
  { st with enabled := true, credentials := some credentials, expiration }

/-- `SftpState::disable`: clears `enabled`, credentials and expiration. -/
def SftpState.disable (st : SftpState) : SftpState :=
  { st with enabled := false, credentials := none, expiration := none }

/-- `SftpState::is_expired`: true exactly when an expiration is set and
`SystemTime::now() >= exp`. -/
def SftpState.is_expired (st : SftpState) (now : Nat) : Bool :=
  match st.expiration with
  | some exp => exp ≤ now
  | none => false

/-- `SftpState::get_credentials`. -/
def SftpState.get_credentials (st : SftpState) : Option SftpCredentials :=
  st.credentials

/-- `SftpState::get_root_directory`. -/
def SftpState.get_root_directory (st : SftpState) : String :=
  st.root_dir

/-- `ToggleSftpResponse` (`src/models/sftp.rs`); `expires_at` is kept as
the raw timestamp rather than its RFC 3339 rendering. -/
structure ToggleSftpResponse where
  status : String
  enabled : Bool
  credentials : Option SftpCredentials
  expires_at : Option Nat
deriving DecidableEq, Repr

/-- The error constructors `ApiResponse::error` is called with in
`SftpService::get_credentials`. -/
inductive ApiError where
  | badRequest : String → ApiError
  | internal : String → ApiError
deriving DecidableEq, Repr

/-- `CredentialsResponse` as built by `SftpService::get_credentials`
(`src/services/sftp.rs`). -/
structure CredentialsResponse where
  username : String
  password : String
  root_directory : String
  port : Nat
deriving DecidableEq, Repr

/-- `SftpService::toggle` (`src/services/sftp.rs`): if enabled, disable
and report disabled; otherwise generate credentials (passed in here),
set the expiration to `now + expiration_days` days when
`expiration_days > 0` and to `None` otherwise, enable, and report
enabled with the credentials.  Returns the updated state with the
response. -/
def SftpService.toggle (st : SftpState) (now expiration_days : Nat)
    (credentials : SftpCredentials) : SftpState × ToggleSftpResponse :=
  if st.is_enabled then
    (st.disable,
      { status := "disabled", enabled := false, credentials := none,
        expires_at := none })
  else
    let expiration :=
      if expiration_days > 0 then
        some (now + expiration_days * 24 * 60 * 60)
      else
        none
    (st.enable credentials expiration,
      { status := "enabled", enabled := true,
        credentials := some credentials, expires_at := expiration })

/-- `SftpService::get_credentials` (`src/services/sftp.rs`): errors when
not enabled; when expired, disables (auto-disable) and errors; when no
credentials are stored, errors; otherwise returns the credential pair
with root directory and port.  Returns the possibly-updated state. -/
def SftpService.get_credentials (st : SftpState) (now port : Nat) :
    Except ApiError CredentialsResponse × SftpState :=
  if ¬ st.is_enabled then
    (.error (.badRequest "SFTP is not enabled"), st)
  else if st.is_expired now then
    (.error (.badRequest "SFTP credentials have expired"), st.disable)
  else
    match st.get_credentials with
    | none => (.error (.internal "No credentials found"), st)
    | some credentials =>
      (.ok { username := credentials.username,
             password := credentials.password,
             root_directory := st.get_root_directory, port }, st)

/-- `SftpService::check_expiration` (`src/services/sftp.rs`): disables
and reports `true` when expired, else reports `false`. -/
def SftpService.check_expiration (st : SftpState) (now : Nat) :
    Bool × SftpState :=
  if st.is_expired now then (true, st.disable) else (false, st)

/-! ## Password authentication (`src/sftp/session.rs`) -/

/-- The authentication verdicts `russh::server::Auth` as used by
`auth_password`: accept, or reject (with no alternative methods). -/
inductive Auth where
  | accept : Auth
  | reject : Auth
deriving DecidableEq, Repr

/-- `SshSession::auth_password`: compares the supplied username and
password against the server's current credential pair; a missing pair or
any mismatch rejects.  The Rust handler returns `Ok(..)` on every path
(never an error), which the model reflects by being a total function
into `Auth`. -/
def auth_password (credentials : Option (String × String))
    (user password : String) : Auth :=
  match credentials with
  | some (username, pass) =>
    if username = user ∧ pass = password then .accept else .reject
  | none => .reject

/-! ## Lifecycle supervisor (`src/services/sftp_lifecycle.rs`) -/

/-- The spawned server task (`tokio::spawn` in `start_server`).
`task_failed` records whether `run_sftp_server` inside the task returned
an error (e.g. a bind failure): the source only logs that error inside
the task; it is invisible to the supervisor. -/
structure ServerTask where
  task_failed : Bool
deriving DecidableEq, Repr

/-- `SftpLifecycleManager::start_server`: fails exactly when
`state.get_credentials()` is `None` ("No credentials available");
otherwise spawns the server task.  `bind_ok` abstracts whether
`run_sftp_server` succeeds inside the spawned task — its failure is
logged there and never propagated to the supervisor. -/
def start_server (st : SftpState) (bind_ok : Bool) :
    Except String ServerTask :=
  match st.get_credentials with
  | none => .error "No credentials available"
  | some _ => .ok { task_failed := !bind_ok }

/-- One iteration of `SftpLifecycleManager::run`'s loop: force-disable on
expiration, then reconcile desired (`is_enabled`) against actual
(`server_task.is_some()`): start when enabled and not running
(force-disabling if `start_server` fails), abort when disabled and
running, otherwise no action.  Returns the updated shared state and
server task slot. -/
def lifecycle_tick (st : SftpState) (server_task : Option ServerTask)
    (now : Nat) (bind_ok : Bool) : SftpState × Option ServerTask :=
  let st1 := if st.is_expired now then st.disable else st
  match st1.is_enabled, server_task.isSome with
  | true, false =>
    match start_server st1 bind_ok with
    | .ok task => (st1, some task)
    | .error _ => (st1.disable, none)
  | false, true => (st1, none)
  | _, _ => (st1, server_task)

/-! ## Field-write decomposition of `SftpState::enable` (concurrency) -/

/-- The three field writes `SftpState::enable` performs, in program
order; each targets a distinct `RwLock`. -/
inductive EnableStep where
  | setEnabled : EnableStep
  | setCredentials : EnableStep
  | setExpiration : EnableStep
deriving DecidableEq, Repr

/-- Effect of one field write of `enable` on the shared state. -/
def applyEnableStep (credentials : SftpCredentials)
    (expiration : Option Nat) (st : SftpState) : EnableStep → SftpState
  | .setEnabled => { st with enabled := true }
  | .setCredentials => { st with credentials := some credentials }
  | .setExpiration => { st with expiration := expiration }

/-- The lock-write order in `SftpState::enable`: `enabled` first, then
`credentials`, then `expiration`. -/
def enableSteps : List EnableStep :=
  [.setEnabled, .setCredentials, .setExpiration]

/-- The shared state a concurrent reader observes after the first `k`
field writes of `enable`: each field sits in its own `Arc<RwLock<_>>`,
so every write releases its lock before the next is taken and a reader
may run between any two of them. -/
def enableStepsTo (credentials : SftpCredentials) (expiration : Option Nat)
    (st : SftpState) (k : Nat) : SftpState :=
  (enableSteps.take k).foldl (applyEnableStep credentials expiration) st

/-! ## SFTP session and handle table (`src/sftp/handler.rs`)

`SftpSession` owns the per-channel handle map (`HashMap<String,
OpenHandle>` modelled as an association list whose lookup returns the
most recent binding, matching the map's read-after-insert behaviour) and
the monotone handle counter.  The handler methods below mirror the
source operation by operation; each takes the request `id`, and the
ones that touch file contents also thread the abstract `Fs`. -/

/-- The SFTP status codes (`russh_sftp::protocol::StatusCode`) this
handler produces. -/
inductive StatusCode where
  | ok : StatusCode
  | eof : StatusCode
  | noSuchFile : StatusCode
  | permissionDenied : StatusCode
  | failure : StatusCode
  | opUnsupported : StatusCode
  | connectionLost : StatusCode
deriving DecidableEq, Repr

/-- The state of the open `tokio::fs::File` descriptor kept in an
`OpenHandle`: the model keys file bytes by resolved path, so the
descriptor itself only carries whether it was opened in append mode
(which redirects every write to the end of the file regardless of the
seek offset). -/
structure FileRef where
  append : Bool
deriving DecidableEq, Repr

/-- `OpenHandle` (`src/sftp/handler.rs`): one open file or directory. -/
structure OpenHandle where
  is_dir : Bool
  dir_contents : Option (List String)
  dir_index : Nat
  path : List String
  file : Option FileRef
deriving DecidableEq, Repr

/-- `SftpSession` (`src/sftp/handler.rs`). -/
structure SftpSession where
  version : Option Nat
  root_dir : String
  open_handles : List (String × OpenHandle)
  next_handle_id : Nat
deriving DecidableEq, Repr

/-- `SftpSession::new`. -/
def SftpSession.new (root_dir : String) : SftpSession :=
  { version := none, root_dir, open_handles := [], next_handle_id := 1 }

/-- `format!("handle_{}", id)`. -/
def handleString (n : Nat) : String :=
  "handle_" ++ Nat.repr n

/-- `SftpSession::generate_handle`: returns `handle_<counter>` and
increments the counter. -/
def generate_handle (s : SftpSession) : String × SftpSession :=
  (handleString s.next_handle_id,
    { s with next_handle_id := s.next_handle_id + 1 })

/-- `HashMap::get` on the handle map. -/
def lookupHandle (hs : List (String × OpenHandle)) (h : String) :
    Option OpenHandle :=
  match hs with
  | [] => none
  | (k, v) :: rest => if k = h then some v else lookupHandle rest h

/-- `HashMap::remove` on the handle map. -/
def removeHandle (hs : List (String × OpenHandle)) (h : String) :
    List (String × OpenHandle) :=
  hs.filter (fun kv => kv.1 != h)

/-- In-place mutation of an existing entry (`get_mut` followed by a
field assignment). -/
def updateHandle (hs : List (String × OpenHandle)) (h : String)
    (oh : OpenHandle) : List (String × OpenHandle) :=
  hs.map (fun kv => if kv.1 = h then (h, oh) else kv)

/-- The open flags `open` inspects (`russh_sftp OpenFlags`). -/
structure OpenFlags where
  read : Bool
  write : Bool
  create : Bool
  truncate : Bool
  append : Bool
deriving DecidableEq, Repr

/-- `Status` reply (`russh_sftp::protocol::Status`). -/
structure Status where
  id : Nat
  status_code : StatusCode
  error_message : String
  language_tag : String
deriving DecidableEq, Repr

/-- `Handle` reply. -/
structure Handle where
  id : Nat
  handle : String
deriving DecidableEq, Repr

/-- `Data` reply; file bytes are `Nat`s. -/
structure Data where
  id : Nat
  data : List Nat
deriving DecidableEq, Repr

/-- `FileAttributes`: the fields `path_to_file` and `readdir` fill. -/
structure FileAttributes where
  size : Option Nat
  uid : Option Nat
  gid : Option Nat
  permissions : Option Nat
  atime : Option Nat
  mtime : Option Nat
deriving DecidableEq, Repr

/-- `FileAttributes::default()`. -/
def defaultAttrs : FileAttributes :=
  { size := none, uid := none, gid := none, permissions := none,
    atime := none, mtime := none }

/-- The attributes of the synthetic `.` and `..` entries: mode `0755`,
nothing else. -/
def dotAttrs : FileAttributes :=
  { size := none, uid := none, gid := none, permissions := some 0o755,
    atime := none, mtime := none }

/-- A directory entry reply (`russh_sftp::protocol::File`). -/
structure File where
  file_name : String
  attrs : FileAttributes
deriving DecidableEq, Repr

/-- `Name` reply. -/
structure Name where
  id : Nat
  files : List File
deriving DecidableEq, Repr

/-- `SftpSession::path_to_file`: stat the path and build a `File` whose
name is the final path component (`"."` when there is none); fails when
the stat fails. -/
def path_to_file (fs : Fs) (path : List String) : Option File :=
  match fs.metadata path with
  | none => none
  | some md =>
    some { file_name := (path.getLast?).getD ".",
           attrs := { size := if md.is_file then some md.size else none,
                      uid := some md.uid, gid := some md.gid,
                      permissions := some md.permissions,
                      atime := md.atime, mtime := md.mtime } }

/-- The per-entry step of `readdir`'s loop: `path_to_file` on
`dir.join(filename)`, falling back to the bare name with default
attributes when the stat fails (a stat failure must not abort the
listing). -/
def entryFile (fs : Fs) (dir : List String) (filename : String) : File :=
  match path_to_file fs (dir ++ [filename]) with
  | some f => f
  | none => { file_name := filename, attrs := defaultAttrs }

/-- The OS-level `OpenOptions::open` outcome, keyed by the byte-content
layer: an existing file opens (truncated to empty when the TRUNCATE
flag is set), a missing file opens as empty exactly when CREATE is set,
and otherwise the open fails.  The `create_dir_all` performed on a
missing parent when CREATE is set always succeeds in this model (the
directory-tree layer of `Fs` is fixed; no verified claim depends on its
mutation or on that call failing). -/
def openOsFile (fs : Fs) (path : List String) (pflags : OpenFlags) :
    Option (List Nat) :=
  match fs.contents path with
  | some c => some (if pflags.truncate then [] else c)
  | none => if pflags.create then some [] else none

/-- `SftpSession::open`: resolve through the jail (failure →
`NoSuchFile`), open the file per flags (failure → `Failure`), store a
fresh file handle, and return it with the updated session and the
updated byte-content layer. -/
def openFile (fs : Fs) (s : SftpSession) (id : Nat) (filename : String)
    (pflags : OpenFlags) : Except StatusCode (Handle × SftpSession × Fs) :=
  match normalize_path fs s.root_dir filename with
  | .error _ => .error .noSuchFile
  | .ok path =>
    match openOsFile fs path pflags with
    | none => .error .failure
    | some newContents =>
      let (handle, s1) := generate_handle s
      .ok ({ id, handle },
        { s1 with open_handles :=
            (handle,
              { is_dir := false, dir_contents := none, dir_index := 0,
                path, file := some { append := pflags.append } })
              :: s1.open_handles },
        { fs with contents :=
            fun p => if p = path then some newContents else fs.contents p })

/-- `SftpSession::close`: removes the handle if present (only logging
when it is missing) and returns an `Ok` status either way. -/
def close (s : SftpSession) (id : Nat) (handle : String) :
    Status × SftpSession :=
  ({ id, status_code := .ok, error_message := "Ok",
     language_tag := "en-US" },
   { s with open_handles := removeHandle s.open_handles handle })

/-- `SftpSession::read`: fails (`Failure`) on a missing or directory
handle or when the file cannot be reopened; otherwise reopens the file
at `open_handle.path`, seeks to `offset` and returns up to `len` bytes
(short reads returned as-is). -/
def read (fs : Fs) (s : SftpSession) (id : Nat) (handle : String)
    (offset len : Nat) : Except StatusCode Data :=
  match lookupHandle s.open_handles handle with
  | none => .error .failure
  | some oh =>
    if oh.is_dir then .error .failure
    else
      match fs.contents oh.path with
      | none => .error .failure
      | some c => .ok { id, data := (c.drop offset).take len }

/-- Overwriting `data` at byte offset `offset` of content `c` (a seek
past the end zero-fills the gap, per POSIX). -/
def writeBytesAt (c : List Nat) (offset : Nat) (data : List Nat) :
    List Nat :=
  c.take offset ++ List.replicate (offset - c.length) 0 ++ data
    ++ c.drop (offset + data.length)

/-- `SftpSession::write`: fails (`Failure`) on a missing handle, a
directory handle or a missing file descriptor; otherwise seeks to
`offset`, writes all bytes and flushes before acknowledging `Ok`
(appending at the end instead when the descriptor was opened with
APPEND).  Returns the status and the updated byte-content layer. -/
def write (fs : Fs) (s : SftpSession) (id : Nat) (handle : String)
    (offset : Nat) (data : List Nat) : Except StatusCode (Status × Fs) :=
  match lookupHandle s.open_handles handle with
  | none => .error .failure
  | some oh =>
    if oh.is_dir then .error .failure
    else
      match oh.file with
      | none => .error .failure
      | some f =>
        let current := (fs.contents oh.path).getD []
        let newContents :=
          if f.append then current ++ data
          else writeBytesAt current offset data
        .ok ({ id, status_code := .ok,
               error_message := "Write successful",
               language_tag := "en-US" },
          { fs with contents :=
              fun p => if p = oh.path then some newContents
                       else fs.contents p })

/-- `SftpSession::opendir`: resolve through the jail, require an
existing directory (`NoSuchFile` otherwise), materialize the full entry
list eagerly (`PermissionDenied` when `read_dir` is refused, `Failure`
when the entry iteration fails), and store a fresh directory handle
with cursor 0. -/
def opendir (fs : Fs) (s : SftpSession) (id : Nat) (path : String) :
    Except StatusCode (Handle × SftpSession) :=
  match normalize_path fs s.root_dir path with
  | .error _ => .error .noSuchFile
  | .ok full_path =>
    match fs.metadata full_path with
    | none => .error .noSuchFile
    | some md =>
      if ¬ md.is_dir then .error .noSuchFile
      else
        match fs.listDir full_path with
        | .denied => .error .permissionDenied
        | .failMid => .error .failure
        | .ok names =>
          let (handle, s1) := generate_handle s
          .ok ({ id, handle },
            { s1 with open_handles :=
                (handle,
                  { is_dir := true, dir_contents := some names,
                    dir_index := 0, path := full_path, file := none })
                  :: s1.open_handles })

/-- `SftpSession::readdir`: fails (`Failure`) on a missing or
non-directory handle (the `unwrap` on `dir_contents` is modelled as the
same failure; it is unreachable for handles this code creates); signals
`Eof` once the cursor has reached the stored entry count; otherwise
returns the next batch of at most 100 entries — prefixed by the
synthetic `.` and `..` entries exactly when the cursor is 0 — and
advances the cursor to the end of the batch. -/
def readdir (fs : Fs) (s : SftpSession) (id : Nat) (handle : String) :
    Except StatusCode (Name × SftpSession) :=
  match lookupHandle s.open_handles handle with
  | none => .error .failure
  | some oh =>
    if ¬ oh.is_dir then .error .failure
    else
      match oh.dir_contents with
      | none => .error .failure
      | some contents =>
        if contents.length ≤ oh.dir_index then .error .eof
        else
          let start_idx := oh.dir_index
          let end_idx := min (start_idx + 100) contents.length
          let file_names := (contents.drop start_idx).take (end_idx - start_idx)
          let files :=
            (if start_idx = 0 then
              [{ file_name := ".", attrs := dotAttrs },
               { file_name := "..", attrs := dotAttrs }]
            else []) ++ file_names.map (entryFile fs oh.path)
          let newHandles :=
            updateHandle s.open_handles handle
              { oh with dir_index := end_idx }
          .ok ({ id, files }, { s with open_handles := newHandles })

/-! ## Specification-side helpers for the pagination claims -/

/-- `chunksOfAux f l`: `l` cut into consecutive chunks of 100, with
explicit fuel `f ≥ l.length` so the recursion is structural. -/
def chunksOfAux : Nat → List String → List (List String)
  | 0, _ => []
  | _, [] => []
  | fuel + 1, x :: xs =>
    (x :: xs).take 100 :: chunksOfAux fuel ((x :: xs).drop 100)

/-- `l` cut into consecutive chunks of 100 entries. -/
def chunksOf (l : List String) : List (List String) :=
  chunksOfAux l.length l

/-- The entry `File`s for one batch of names from directory `dir`. -/
def pageEntries (fs : Fs) (dir : List String) (names : List String) :
    List File :=
  names.map (entryFile fs dir)

/-- The synthetic `.` and `..` entries (mode `0755`). -/
def synthFiles : List File :=
  [{ file_name := ".", attrs := dotAttrs },
   { file_name := "..", attrs := dotAttrs }]

/-- The pages `readdir` yields from cursor `i` onward for a directory
handle over `dir` with materialized entries `L`: the chunks of 100 of
`L.drop i`, the first prefixed by the synthetic entries exactly when
`i = 0`. -/
def pagesFrom (fs : Fs) (dir : List String) (L : List String) (i : Nat) :
    List (List File) :=
  match chunksOf (L.drop i) with
  | [] => []
  | c :: cs =>
    ((if i = 0 then synthFiles else []) ++ pageEntries fs dir c)
      :: cs.map (pageEntries fs dir)

/-- All pages of a directory handle read from the start. -/
def pagesSpec (fs : Fs) (dir : List String) (L : List String) :
    List (List File) :=
  pagesFrom fs dir L 0

/-- Repeatedly call `readdir` on one handle, collecting the `files`
list of every successful reply, until an error status (or the fuel runs
out, in which case the final status is `none`). -/
def readdirAll (fs : Fs) : Nat → SftpSession → Nat → String →
    List (List File) × SftpSession × Option StatusCode
  | 0, s, _, _ => ([], s, none)
  | fuel + 1, s, id, h =>
    match readdir fs s id h with
    | .error c => ([], s, some c)
    | .ok (nm, s') =>
      let r := readdirAll fs fuel s' id h
      (nm.files :: r.1, r.2.1, r.2.2)

/-! ## Decimal-representation helpers (injectivity of handle ids) -/

/-- Numeric value of a decimal digit character. -/
def digitVal (c : Char) : Nat :=
  c.toNat - 48

/-- Value of a list of decimal digit characters, most significant
first. -/
def digitsVal (cs : List Char) : Nat :=
  cs.foldl (fun a c => 10 * a + digitVal c) 0

/-- The handle-table invariant: every key in the map is `handle_<m>`
for some already-consumed counter value `m`. -/
def HandleInv (s : SftpSession) : Prop :=
  ∀ kv ∈ s.open_handles,
    ∃ m, m < s.next_handle_id ∧ kv.1 = handleString m

/-- Concrete filesystem with one directory `/data` holding three
entries. -/
def sampleDirFs : Fs where
  pathExists := fun p => p = [Comp.normal "data"]
  canon := fun p =>
    if p = [Comp.normal "data"] then some ["data"] else none
  metadata := fun p =>
    if p = ["data"] then
      some { is_dir := true, is_file := false, size := 0, uid := 0,
             gid := 0, permissions := 0o755, atime := none, mtime := none }
    else none
  listDir := fun p =>
    if p = ["data"] then .ok ["a", "b", "c"] else .denied
  contents := fun _ => none

/-- Concrete filesystem with one empty directory `/data`. -/
def emptyDirFs : Fs :=
  { sampleDirFs with
    listDir := fun p => if p = ["data"] then .ok [] else .denied }

/-- Concrete filesystem with one regular file `/data/f`, initially
empty. -/
def sampleFileFs : Fs where
  pathExists := fun p =>
    p = [Comp.normal "data"] ∨ p = [Comp.normal "data", Comp.normal "f"]
  canon := fun p =>
    if p = [Comp.normal "data"] then some ["data"]
    else if p = [Comp.normal "data", Comp.normal "f"] then
      some ["data", "f"]
    else none
  metadata := fun _ => none
  listDir := fun _ => .denied
  contents := fun p => if p = ["data", "f"] then some [] else none

/-- The byte-content layer after creating the empty file `/data/f.txt`
on `sampleDirFs`. -/
def witnessFs1 : Fs :=
  { sampleDirFs with contents := fun p =>
      if p = ["data", "f.txt"] then some [] else sampleDirFs.contents p }

/-- The session after opening `/data/f.txt` (handle 1) on
`sampleDirFs`. -/
def witnessS1 : SftpSession :=
  { version := none, root_dir := "/data",
    open_handles :=
      [("handle_1",
        { is_dir := false, dir_contents := none, dir_index := 0,
          path := ["data", "f.txt"],
          file := some { append := false } })],
    next_handle_id := 2 }

/-- The session after opening `/data/f.txt` (handle 1) and the
directory `/data` (handle 2) on `sampleDirFs`. -/
def witnessS3 : SftpSession :=
  { version := none, root_dir := "/data",
    open_handles :=
      [("handle_2",
        { is_dir := true, dir_contents := some ["a", "b", "c"],
          dir_index := 0, path := ["data"], file := none }),
       ("handle_1",
        { is_dir := false, dir_contents := none, dir_index := 0,
          path := ["data", "f.txt"],
          file := some { append := false } })],
    next_handle_id := 3 }

/-! ## Theorems: the path jail (claim C1) -/

theorem handle_nonexistent_path_jail (fs : Fs) (tp rp : List Comp)
    (r : List String) (h : handle_nonexistent_path fs tp rp = .ok r) :
    ∃ cr, fs.canon rp = some cr ∧ cr.isPrefixOf r = true := by
  unfold handle_nonexistent_path at h
  split at h
  · exact absurd h (by simp)
  · split at h
    · exact absurd h (by simp)
    · split at h
      · exact absurd h (by simp)
      · rename_i canonical_root hcr
        split at h
        · rename_i hpre
          simp only [Except.ok.injEq] at h
          refine ⟨canonical_root, hcr, ?_⟩
          rw [List.isPrefixOf_iff_prefix] at hpre ⊢
          subst h
          exact hpre.trans (List.prefix_append _ _)
        · exact absurd h (by simp)

theorem canonicalize_and_validate_jail (fs : Fs) (tp rp : List Comp)
    (r : List String) (h : canonicalize_and_validate fs tp rp = .ok r) :
    ∃ cr, fs.canon rp = some cr ∧ cr.isPrefixOf r = true := by
  unfold canonicalize_and_validate at h
  split at h
  · exact absurd h (by simp)
  · split at h
    · exact absurd h (by simp)
    · rename_i canonical_root hcr
      split at h
      · rename_i hpre
        simp only [Except.ok.injEq] at h
        subst h
        exact ⟨canonical_root, hcr, hpre⟩
      · exact absurd h (by simp)

/-- C1.  For every abstract filesystem, root directory and raw client
path, if the path-jail resolution `normalize_path` returns a path, that
path is equal to or a descendant of (a component-wise extension of) the
canonicalized root; this covers raw paths with any number of `..`
segments, in the empty-path case, the existing-path branch, and the
nonexistent-path branch that walks up to an existing ancestor and
re-appends the missing components.  Any escape attempt thus either
yields a jailed path or fails with one of the modelled errors. -/
theorem normalize_path_jailed (fs : Fs) (root_dir path : String)
    (r : List String) (h : normalize_path fs root_dir path = .ok r) :
    ∃ cr, fs.canon (parseComps root_dir) = some cr ∧
      cr.isPrefixOf r = true := by
  unfold normalize_path at h
  by_cases hroot : path = "" ∨ path = "/"
  · simp only [hroot, if_true] at h
    cases hcr : fs.canon (parseComps root_dir) with
    | none => rw [hcr] at h; exact absurd h (by simp)
    | some p =>
      rw [hcr] at h
      simp only [Except.ok.injEq] at h
      subst h
      exact ⟨p, rfl, by rw [List.isPrefixOf_iff_prefix]⟩
  · simp only [hroot, if_false] at h
    by_cases hex :
        fs.pathExists (parseComps root_dir ++
          parseComps (trimLeadingSlashes path)) = true
    · rw [if_pos hex] at h
      exact canonicalize_and_validate_jail fs _ _ r h
    · rw [if_neg hex] at h
      exact handle_nonexistent_path_jail fs _ _ r h

theorem normalize_path_jailed_witness :
    ∃ cr, sampleFs.canon (parseComps "/data") = some cr ∧
      cr.isPrefixOf ["data", "a", "b"] = true :=
  normalize_path_jailed sampleFs "/data" "a/../b" ["data", "a", "b"]
    (by rfl)

/-! ## List and chunk lemmas -/

theorem take_min_length {α : Type _} (l : List α) (n : Nat) :
    l.take (min n l.length) = l.take n := by
  induction l generalizing n with
  | nil => simp
  | cons x xs ih =>
    cases n with
    | zero => simp
    | succ m =>
      simp only [List.length_cons, Nat.succ_min_succ, List.take_succ_cons]
      rw [ih m]

theorem drop_min_length {α : Type _} (l : List α) (n : Nat) :
    l.drop (min n l.length) = l.drop n := by
  induction l generalizing n with
  | nil => simp
  | cons x xs ih =>
    cases n with
    | zero => simp
    | succ m =>
      simp only [List.length_cons, Nat.succ_min_succ, List.drop_succ_cons]
      rw [ih m]

theorem chunksOfAux_nil (f : Nat) : chunksOfAux f [] = [] := by
  cases f <;> rfl

theorem chunksOfAux_fuel (f : Nat) :
    ∀ (g : Nat) (l : List String), l.length ≤ f → l.length ≤ g →
      chunksOfAux f l = chunksOfAux g l := by
  induction f with
  | zero =>
    intro g l hf _
    have : l = [] := List.eq_nil_of_length_eq_zero (Nat.le_zero.mp hf)
    subst this
    rw [chunksOfAux_nil, chunksOfAux_nil]
  | succ f ih =>
    intro g l hf hg
    cases l with
    | nil => rw [chunksOfAux_nil, chunksOfAux_nil]
    | cons x xs =>
      cases g with
      | zero => simp at hg
      | succ g =>
        simp only [chunksOfAux]
        rw [ih g ((x :: xs).drop 100)
          (by simp only [List.length_drop]; simp at hf ⊢; omega)
          (by simp only [List.length_drop]; simp at hg ⊢; omega)]

theorem chunksOf_cons (x : String) (xs : List String) :
    chunksOf (x :: xs) =
      (x :: xs).take 100 :: chunksOf ((x :: xs).drop 100) := by
  show chunksOfAux (x :: xs).length (x :: xs) = _
  simp only [List.length_cons, chunksOfAux]
  congr 1
  exact chunksOfAux_fuel xs.length ((x :: xs).drop 100).length
    ((x :: xs).drop 100)
    (by simp only [List.length_drop, List.length_cons]; omega)
    (Nat.le_refl _)

theorem chunksOf_flatten (l : List String) : (chunksOf l).flatten = l := by
  have key : ∀ (f : Nat) (l : List String), l.length ≤ f →
      (chunksOf l).flatten = l := by
    intro f
    induction f with
    | zero =>
      intro l hf
      have : l = [] := List.eq_nil_of_length_eq_zero (Nat.le_zero.mp hf)
      subst this
      rfl
    | succ f ih =>
      intro l hf
      cases l with
      | nil => rfl
      | cons x xs =>
        rw [chunksOf_cons]
        simp only [List.flatten_cons]
        rw [ih ((x :: xs).drop 100)
          (by simp only [List.length_drop]; simp at hf ⊢; omega)]
        exact List.take_append_drop 100 (x :: xs)
  exact key l.length l (Nat.le_refl _)

theorem chunksOf_length_le (l : List String) :
    ∀ c ∈ chunksOf l, c.length ≤ 100 := by
  have key : ∀ (f : Nat) (l : List String), l.length ≤ f →
      ∀ c ∈ chunksOf l, c.length ≤ 100 := by
    intro f
    induction f with
    | zero =>
      intro l hf c hc
      have : l = [] := List.eq_nil_of_length_eq_zero (Nat.le_zero.mp hf)
      subst this
      simp [chunksOf, chunksOfAux_nil] at hc
    | succ f ih =>
      intro l hf c hc
      cases l with
      | nil => simp [chunksOf, chunksOfAux_nil] at hc
      | cons x xs =>
        rw [chunksOf_cons] at hc
        rcases List.mem_cons.mp hc with h | h
        · subst h
          simp only [List.length_take]
          omega
        · exact ih ((x :: xs).drop 100)
            (by simp only [List.length_drop]; simp at hf ⊢; omega) c h
  exact key l.length l (Nat.le_refl _)

theorem chunksOf_drop_eq_nil (L : List String) (i : Nat)
    (h : L.length ≤ i) : chunksOf (L.drop i) = [] := by
  rw [List.drop_eq_nil_of_le h]
  rfl

theorem pagesFrom_of_le (fs : Fs) (dir : List String) (L : List String)
    (i : Nat) (h : L.length ≤ i) : pagesFrom fs dir L i = [] := by
  unfold pagesFrom
  rw [chunksOf_drop_eq_nil L i h]

theorem pagesFrom_pos (fs : Fs) (dir : List String) (L : List String)
    (i : Nat) (h : i ≠ 0) :
    pagesFrom fs dir L i = (chunksOf (L.drop i)).map (pageEntries fs dir) := by
  unfold pagesFrom
  cases hch : chunksOf (L.drop i) with
  | nil => rfl
  | cons c cs => simp [h]

/-! ## Handle-map lemmas -/

theorem lookupHandle_updateHandle (hs : List (String × OpenHandle))
    (h : String) (oh oh' : OpenHandle)
    (hl : lookupHandle hs h = some oh) :
    lookupHandle (updateHandle hs h oh') h = some oh' := by
  induction hs with
  | nil => simp [lookupHandle] at hl
  | cons kv rest ih =>
    obtain ⟨k, v⟩ := kv
    by_cases hk : k = h
    · subst hk
      show lookupHandle ((if (k, v).1 = k then (k, oh') else (k, v)) ::
        updateHandle rest k oh') k = some oh'
      rw [if_pos rfl]
      show (if k = k then some oh'
        else lookupHandle (updateHandle rest k oh') k) = some oh'
      rw [if_pos rfl]
    · simp only [lookupHandle, if_neg hk] at hl
      simp only [updateHandle, List.map_cons, if_neg hk]
      simp only [lookupHandle, if_neg hk]
      exact ih hl

theorem lookupHandle_removeHandle (hs : List (String × OpenHandle))
    (h : String) : lookupHandle (removeHandle hs h) h = none := by
  induction hs with
  | nil => rfl
  | cons kv rest ih =>
    obtain ⟨k, v⟩ := kv
    show lookupHandle
      (List.filter (fun kv => kv.1 != h) ((k, v) :: rest)) h = none
    rw [List.filter_cons]
    by_cases hk : k = h
    · subst hk
      simp only [bne_self_eq_false, Bool.false_eq_true, if_false]
      exact ih
    · have hbne : ((k, v).1 != h) = true := by simpa using hk
      rw [if_pos hbne]
      simp only [lookupHandle, if_neg hk]
      exact ih

/-! ## readdir step lemmas -/

theorem readdir_eof (fs : Fs) (s : SftpSession) (id : Nat) (h : String)
    (oh : OpenHandle) (L : List String)
    (hlk : lookupHandle s.open_handles h = some oh)
    (hdir : oh.is_dir = true) (hct : oh.dir_contents = some L)
    (hidx : L.length ≤ oh.dir_index) :
    readdir fs s id h = .error .eof := by
  unfold readdir
  rw [hlk]
  dsimp only
  rw [hdir, hct]
  simp [hidx]

theorem readdir_step (fs : Fs) (s : SftpSession) (id : Nat) (h : String)
    (oh : OpenHandle) (L : List String) (i : Nat)
    (hlk : lookupHandle s.open_handles h = some oh)
    (hdir : oh.is_dir = true) (hct : oh.dir_contents = some L)
    (hidx : oh.dir_index = i) (hlt : i < L.length) :
    readdir fs s id h =
      .ok ({ id, files := (if i = 0 then synthFiles else []) ++
              pageEntries fs oh.path ((L.drop i).take 100) },
           { s with open_handles := updateHandle s.open_handles h ({ oh with dir_index := min (i + 100) L.length }) }) := by
  obtain ⟨d, ct, idx, pth, fl⟩ := oh
  have hd : d = true := hdir
  have hc : ct = some L := hct
  have hi : idx = i := hidx
  subst hd hc hi
  unfold readdir
  rw [hlk]
  dsimp only
  rw [if_neg (show ¬(¬(true : Bool) = true) from by simp)]
  have hEof : ¬ (L.length ≤ idx) := by omega
  rw [if_neg hEof]
  have htake : (L.drop idx).take (min (idx + 100) L.length - idx) =
      (L.drop idx).take 100 := by
    have h1 : min (idx + 100) L.length - idx =
        min 100 (L.drop idx).length := by
      simp only [List.length_drop]
      omega
    rw [h1, take_min_length]
  rw [htake]
  rfl

theorem pagesFrom_step (fs : Fs) (dir : List String) (L : List String)
    (i : Nat) (hlt : i < L.length) :
    pagesFrom fs dir L i =
      ((if i = 0 then synthFiles else []) ++
        pageEntries fs dir ((L.drop i).take 100))
      :: pagesFrom fs dir L (min (i + 100) L.length) := by
  have hi' : min (i + 100) L.length ≠ 0 := by omega
  have hdropeq : L.drop (min (i + 100) L.length) = (L.drop i).drop 100 := by
    rw [drop_min_length, List.drop_drop]
  obtain ⟨x, xs, hxx⟩ : ∃ x xs, L.drop i = x :: xs := by
    cases hd : L.drop i with
    | nil =>
      exfalso
      have hlen := congrArg List.length hd
      simp only [List.length_drop, List.length_nil] at hlen
      omega
    | cons a b => exact ⟨a, b, rfl⟩
  have hch : chunksOf (L.drop i) =
      (L.drop i).take 100 :: chunksOf ((L.drop i).drop 100) := by
    rw [hxx]
    exact chunksOf_cons x xs
  conv_lhs => rw [pagesFrom]
  rw [hch]
  dsimp only
  rw [pagesFrom_pos fs dir L (min (i + 100) L.length) hi', hdropeq]

theorem readdirAll_from (fs : Fs) :
    ∀ (fuel : Nat) (s : SftpSession) (id : Nat) (h : String)
      (oh : OpenHandle) (L : List String) (i : Nat),
      lookupHandle s.open_handles h = some oh →
      oh.is_dir = true → oh.dir_contents = some L → oh.dir_index = i →
      L.length - i + 1 ≤ fuel →
      ∃ s2,
        readdirAll fs fuel s id h =
          (pagesFrom fs oh.path L i, s2, some StatusCode.eof) ∧
        lookupHandle s2.open_handles h =
          some ({ oh with dir_index := max i L.length }) := by
  intro fuel
  induction fuel with
  | zero =>
    intro s id h oh L i _ _ _ _ hf
    omega
  | succ fuel ih =>
    intro s id h oh L i hlk hdir hct hidx hf
    obtain ⟨d, ct, idx, pth, fl⟩ := oh
    have hd : d = true := hdir
    have hc : ct = some L := hct
    have hi : idx = i := hidx
    subst hd hc hi
    by_cases hend : L.length ≤ idx
    · have heof := readdir_eof fs s id h _ L hlk rfl rfl hend
      refine ⟨s, ?_, ?_⟩
      · simp only [readdirAll, heof]
        rw [pagesFrom_of_le fs pth L idx hend]
      · rw [Nat.max_eq_left hend]
        exact hlk
    · have hlt : idx < L.length := by omega
      have hstep := readdir_step fs s id h _ L idx hlk rfl rfl rfl hlt
      set i' := min (idx + 100) L.length with hi'
      set oh' : OpenHandle :=
        { is_dir := true, dir_contents := some L, dir_index := i',
          path := pth, file := fl } with hoh'
      have hlk' : lookupHandle
          (updateHandle s.open_handles h oh') h = some oh' :=
        lookupHandle_updateHandle s.open_handles h _ oh' hlk
      obtain ⟨s2, hall, hlk2⟩ :=
        ih { s with open_handles := updateHandle s.open_handles h oh' }
          id h oh' L i' hlk' rfl rfl rfl (by omega)
      refine ⟨s2, ?_, ?_⟩
      · simp only [readdirAll, hstep]
        rw [hall]
        dsimp only
        rw [pagesFrom_step fs pth L idx hlt]
      · rw [hlk2]
        have hmax : max i' L.length = max idx L.length := by omega
        rw [hmax]
  -- end

/-- Characterization of a successful `opendir`: the jail resolved the
path, the listing succeeded, and the session gained exactly one fresh
directory handle (cursor 0, materialized names) under the new counter
value. -/
theorem opendir_ok (fs : Fs) (s : SftpSession) (id : Nat) (p : String)
    (hdl : Handle) (s1 : SftpSession)
    (h : opendir fs s id p = .ok (hdl, s1)) :
    ∃ fp names,
      normalize_path fs s.root_dir p = .ok fp ∧
      fs.listDir fp = .ok names ∧
      hdl.handle = handleString s.next_handle_id ∧
      s1.next_handle_id = s.next_handle_id + 1 ∧
      s1.open_handles = (hdl.handle,
        { is_dir := true, dir_contents := some names, dir_index := 0,
          path := fp, file := none }) :: s.open_handles ∧
      lookupHandle s1.open_handles hdl.handle =
        some { is_dir := true, dir_contents := some names,
               dir_index := 0, path := fp, file := none } := by
  unfold opendir at h
  split at h
  · exact absurd h (by simp)
  · rename_i fp hnp
    split at h
    · exact absurd h (by simp)
    · rename_i md hmd
      split at h
      · exact absurd h (by simp)
      · split at h
        · exact absurd h (by simp)
        · exact absurd h (by simp)
        · rename_i names hld
          simp only [generate_handle, Except.ok.injEq, Prod.mk.injEq] at h
          obtain ⟨hh, hs⟩ := h
          refine ⟨fp, names, hnp, hld, ?_, ?_, ?_, ?_⟩
          · rw [← hh]
          · rw [← hs]
          · rw [← hs, ← hh]
          · rw [← hs, ← hh]
            show (if handleString s.next_handle_id =
              handleString s.next_handle_id then _ else _) = _
            rw [if_pos rfl]

/-- C2.  For every directory handle opened by `opendir` over a
directory whose materialized entry list is `L` (N entries), iterating
`readdir` returns exactly the consecutive 100-entry chunks of `L` (each
converted to entry `File`s), with the synthetic `.` and `..` entries
prefixed to the first page only; every chunk has at most 100 entries
and their concatenation in order is `L`; the cursor ends at `N`; the
call after the last non-empty batch fails with `Eof`, as does every
further call on the unchanged session. -/
theorem readdir_pagination (fs : Fs) (s : SftpSession) (id : Nat)
    (p : String) (hdl : Handle) (s1 : SftpSession) (oh : OpenHandle)
    (L : List String) (fuel : Nat)
    (hod : opendir fs s id p = .ok (hdl, s1))
    (hlk : lookupHandle s1.open_handles hdl.handle = some oh)
    (hct : oh.dir_contents = some L)
    (hfuel : L.length + 1 ≤ fuel) :
    ∃ s2,
      readdirAll fs fuel s1 id hdl.handle =
        (pagesSpec fs oh.path L, s2, some StatusCode.eof) ∧
      (∀ c ∈ chunksOf L, c.length ≤ 100) ∧
      (chunksOf L).flatten = L ∧
      lookupHandle s2.open_handles hdl.handle =
        some ({ oh with dir_index := L.length }) ∧
      readdir fs s2 id hdl.handle = .error StatusCode.eof := by
  obtain ⟨fp, names, hnp, hld, hh, hnext, hopen, hlk0⟩ :=
    opendir_ok fs s id p hdl s1 hod
  rw [hlk0] at hlk
  injection hlk with hlk
  subst hlk
  have hnames : names = L := by simpa using hct
  subst hnames
  obtain ⟨s2, hall, hlk2⟩ :=
    readdirAll_from fs fuel s1 id hdl.handle _ names 0 hlk0 rfl rfl rfl
      (by omega)
  have hmax : max 0 names.length = names.length := by omega
  rw [hmax] at hlk2
  refine ⟨s2, hall, chunksOf_length_le names, chunksOf_flatten names,
    hlk2, ?_⟩
  exact readdir_eof fs s2 id hdl.handle _ names hlk2 rfl rfl
    (by simp)

theorem readdir_pagination_witness :
    ∃ s2,
      readdirAll sampleDirFs 4
        { version := none, root_dir := "/data",
          open_handles := [("handle_1",
            { is_dir := true, dir_contents := some ["a", "b", "c"],
              dir_index := 0, path := ["data"], file := none })],
          next_handle_id := 2 } 1 "handle_1" =
        (pagesSpec sampleDirFs ["data"] ["a", "b", "c"], s2,
          some StatusCode.eof) ∧
      (∀ c ∈ chunksOf ["a", "b", "c"], c.length ≤ 100) ∧
      (chunksOf ["a", "b", "c"]).flatten = ["a", "b", "c"] ∧
      lookupHandle s2.open_handles "handle_1" =
        some { is_dir := true, dir_contents := some ["a", "b", "c"],
               dir_index := 3, path := ["data"], file := none } ∧
      readdir sampleDirFs s2 1 "handle_1" = .error StatusCode.eof :=
  readdir_pagination sampleDirFs (SftpSession.new "/data") 1 "/"
    { id := 1, handle := "handle_1" }
    { version := none, root_dir := "/data",
      open_handles := [("handle_1",
        { is_dir := true, dir_contents := some ["a", "b", "c"],
          dir_index := 0, path := ["data"], file := none })],
      next_handle_id := 2 }
    { is_dir := true, dir_contents := some ["a", "b", "c"],
      dir_index := 0, path := ["data"], file := none }
    ["a", "b", "c"] 4 (by rfl) (by rfl) (by rfl) (by decide)

/-- C10.  For every directory handle opened by `opendir` over an empty
directory (zero real entries), the very first `readdir` call on that
handle fails with `Eof` — and since the session is returned unchanged
on error, so does every further call — so the synthetic `.` and `..`
entries are never emitted for an empty directory. -/
theorem readdir_empty_dir_eof (fs : Fs) (s : SftpSession) (id id2 : Nat)
    (p : String) (hdl : Handle) (s1 : SftpSession) (oh : OpenHandle)
    (hod : opendir fs s id p = .ok (hdl, s1))
    (hlk : lookupHandle s1.open_handles hdl.handle = some oh)
    (hct : oh.dir_contents = some []) :
    readdir fs s1 id2 hdl.handle = .error StatusCode.eof := by
  obtain ⟨fp, names, hnp, hld, hh, hnext, hopen, hlk0⟩ :=
    opendir_ok fs s id p hdl s1 hod
  rw [hlk0] at hlk
  injection hlk with hlk
  subst hlk
  have hnames : names = [] := by simpa using hct
  subst hnames
  exact readdir_eof fs s1 id2 hdl.handle _ [] hlk0 rfl rfl (by simp)

theorem readdir_empty_dir_eof_witness :
    readdir emptyDirFs
      { version := none, root_dir := "/data",
        open_handles := [("handle_1",
          { is_dir := true, dir_contents := some [],
            dir_index := 0, path := ["data"], file := none })],
        next_handle_id := 2 } 2 "handle_1" =
      .error StatusCode.eof :=
  readdir_empty_dir_eof emptyDirFs (SftpSession.new "/data") 1 2 "/"
    { id := 1, handle := "handle_1" }
    { version := none, root_dir := "/data",
      open_handles := [("handle_1",
        { is_dir := true, dir_contents := some [],
          dir_index := 0, path := ["data"], file := none })],
      next_handle_id := 2 }
    { is_dir := true, dir_contents := some [],
      dir_index := 0, path := ["data"], file := none }
    (by rfl) (by rfl) (by rfl)

theorem take_length_append {α : Type _} (l m : List α) :
    (l ++ m).take l.length = l := by
  induction l with
  | nil => simp
  | cons x xs ih => simp [ih]

/-- C8.  For every file handle open for reading and writing (a non-
directory handle whose descriptor is present and not in append mode),
`write(handle, offset 0, data)` acknowledges `Ok` after writing and
flushing all bytes, and a subsequent `read(handle, offset 0,
len = data.length)` against the updated file contents returns exactly
`data`. -/
theorem write_then_read_roundtrip (fs : Fs) (s : SftpSession)
    (id1 id2 : Nat) (h : String) (oh : OpenHandle) (data : List Nat)
    (hlk : lookupHandle s.open_handles h = some oh)
    (hdir : oh.is_dir = false) (hf : oh.file = some { append := false }) :
    ∃ st fs',
      write fs s id1 h 0 data = .ok (st, fs') ∧
      st.status_code = StatusCode.ok ∧
      read fs' s id2 h 0 data.length = .ok { id := id2, data := data } := by
  obtain ⟨d, ct, idx, pth, fl⟩ := oh
  have hd : d = false := hdir
  have hfl : fl = some { append := false } := hf
  subst hd hfl
  refine ⟨{ id := id1, status_code := .ok,
            error_message := "Write successful",
            language_tag := "en-US" },
    { fs with contents := fun p =>
        if p = pth then
          some (writeBytesAt ((fs.contents pth).getD []) 0 data)
        else fs.contents p },
    ?_, rfl, ?_⟩
  · unfold write
    rw [hlk]
    rfl
  · unfold read
    rw [hlk]
    dsimp only
    rw [if_neg (show ¬((false : Bool) = true) from by simp)]
    rw [if_pos rfl]
    dsimp only
    simp only [writeBytesAt, List.take_zero, Nat.zero_sub,
      List.replicate_zero, List.nil_append, Nat.zero_add,
      List.drop_zero]
    rw [take_length_append]

theorem write_then_read_roundtrip_witness :
    ∃ st fs',
      write sampleFileFs
        { version := none, root_dir := "/data",
          open_handles := [("handle_1",
            { is_dir := false, dir_contents := none, dir_index := 0,
              path := ["data", "f"],
              file := some { append := false } })],
          next_handle_id := 2 } 1 "handle_1" 0 [5, 6] = .ok (st, fs') ∧
      st.status_code = StatusCode.ok ∧
      read fs'
        { version := none, root_dir := "/data",
          open_handles := [("handle_1",
            { is_dir := false, dir_contents := none, dir_index := 0,
              path := ["data", "f"],
              file := some { append := false } })],
          next_handle_id := 2 } 2 "handle_1" 0 [5, 6].length =
        .ok { id := 2, data := [5, 6] } :=
  write_then_read_roundtrip sampleFileFs
    { version := none, root_dir := "/data",
      open_handles := [("handle_1",
        { is_dir := false, dir_contents := none, dir_index := 0,
          path := ["data", "f"], file := some { append := false } })],
      next_handle_id := 2 } 1 2 "handle_1"
    { is_dir := false, dir_contents := none, dir_index := 0,
      path := ["data", "f"], file := some { append := false } }
    [5, 6] (by rfl) rfl rfl

/-! ## Injectivity of the decimal handle ids -/

theorem digitVal_digitChar :
    ∀ d : Nat, d < 10 → digitVal (Nat.digitChar d) = d := by decide

theorem toDigitsCore_succ (fuel n : Nat) (ds : List Char) :
    Nat.toDigitsCore 10 (fuel + 1) n ds =
      if n / 10 = 0 then (n % 10).digitChar :: ds
      else Nat.toDigitsCore 10 fuel (n / 10) ((n % 10).digitChar :: ds) :=
  rfl

theorem toDigitsCore_append (n : Nat) :
    ∀ (fuel : Nat) (ds : List Char), n < fuel →
      Nat.toDigitsCore 10 fuel n ds = Nat.toDigits 10 n ++ ds := by
  induction n using Nat.strong_induction_on with
  | _ n ih =>
    intro fuel ds hf
    obtain ⟨f, rfl⟩ : ∃ f, fuel = f + 1 := ⟨fuel - 1, by omega⟩
    rw [toDigitsCore_succ]
    by_cases h0 : n / 10 = 0
    · rw [if_pos h0]
      show _ = Nat.toDigitsCore 10 (n + 1) n [] ++ ds
      rw [toDigitsCore_succ, if_pos h0]
      rfl
    · rw [if_neg h0]
      have hn10 : n / 10 < n := by omega
      rw [ih (n / 10) hn10 f ((n % 10).digitChar :: ds) (by omega)]
      show _ = Nat.toDigitsCore 10 (n + 1) n [] ++ ds
      rw [toDigitsCore_succ, if_neg h0]
      rw [ih (n / 10) hn10 n [(n % 10).digitChar] hn10]
      simp

theorem digitsVal_append_singleton (l : List Char) (c : Char) :
    digitsVal (l ++ [c]) = 10 * digitsVal l + digitVal c := by
  unfold digitsVal
  rw [List.foldl_append]
  rfl

theorem digitsVal_toDigits (n : Nat) :
    digitsVal (Nat.toDigits 10 n) = n := by
  induction n using Nat.strong_induction_on with
  | _ n ih =>
    by_cases h0 : n / 10 = 0
    · have hd : Nat.toDigits 10 n = [(n % 10).digitChar] := by
        show Nat.toDigitsCore 10 (n + 1) n [] = _
        rw [toDigitsCore_succ, if_pos h0]
      rw [hd]
      show 10 * 0 + digitVal ((n % 10).digitChar) = n
      rw [digitVal_digitChar (n % 10) (by omega)]
      omega
    · have hd : Nat.toDigits 10 n =
          Nat.toDigits 10 (n / 10) ++ [(n % 10).digitChar] := by
        show Nat.toDigitsCore 10 (n + 1) n [] = _
        rw [toDigitsCore_succ, if_neg h0]
        exact toDigitsCore_append (n / 10) n [(n % 10).digitChar]
          (by omega)
      rw [hd, digitsVal_append_singleton, ih (n / 10) (by omega),
        digitVal_digitChar (n % 10) (by omega)]
      omega

theorem repr_injective (m n : Nat) (h : Nat.repr m = Nat.repr n) :
    m = n := by
  have hdata : Nat.toDigits 10 m = Nat.toDigits 10 n := by
    have hd := congrArg String.data h
    simpa [Nat.repr, List.asString] using hd
  have hval := congrArg digitsVal hdata
  rwa [digitsVal_toDigits, digitsVal_toDigits] at hval

theorem handleString_injective (m n : Nat)
    (h : handleString m = handleString n) : m = n := by
  unfold handleString at h
  have hdata := congrArg String.data h
  rw [String.data_append, String.data_append] at hdata
  exact repr_injective m n (String.ext (List.append_cancel_left hdata))

/-! ## Handle-table freshness -/

theorem lookupHandle_none_of_fresh (nid : Nat) :
    ∀ hs : List (String × OpenHandle),
      (∀ kv ∈ hs, ∃ m, m < nid ∧ kv.1 = handleString m) →
      lookupHandle hs (handleString nid) = none := by
  intro hs
  induction hs with
  | nil => intro _; rfl
  | cons kv rest ih =>
    intro hall
    obtain ⟨m, hm, hk⟩ := hall kv (by simp)
    have hne : kv.1 ≠ handleString nid := by
      rw [hk]
      intro he
      have := handleString_injective _ _ he
      omega
    show (if kv.1 = handleString nid then some kv.2
      else lookupHandle rest (handleString nid)) = none
    rw [if_neg hne]
    exact ih (fun kv hkv => hall kv (List.mem_cons_of_mem _ hkv))

/-- Characterization of a successful `open`: the returned handle is the
formatted current counter value, the counter advances by one, and the
session gains exactly one file handle at the front of the map. -/
theorem openFile_ok (fs : Fs) (s : SftpSession) (id : Nat)
    (filename : String) (pflags : OpenFlags) (hdl : Handle)
    (s1 : SftpSession) (fs1 : Fs)
    (h : openFile fs s id filename pflags = .ok (hdl, s1, fs1)) :
    hdl.handle = handleString s.next_handle_id ∧
    s1.next_handle_id = s.next_handle_id + 1 ∧
    ∃ pth, s1.open_handles = (hdl.handle,
      { is_dir := false, dir_contents := none, dir_index := 0,
        path := pth, file := some { append := pflags.append } })
        :: s.open_handles := by
  unfold openFile at h
  split at h
  · exact absurd h (by simp)
  · rename_i pth hnp
    split at h
    · exact absurd h (by simp)
    · rename_i cts hos
      simp only [generate_handle, Except.ok.injEq, Prod.mk.injEq] at h
      obtain ⟨hh, hs, _⟩ := h
      refine ⟨?_, ?_, pth, ?_⟩
      · rw [← hh]
      · rw [← hs]
      · rw [← hs, ← hh]

theorem HandleInv_cons (s s1 : SftpSession) (k : String)
    (oh : OpenHandle) (hinv : HandleInv s)
    (hk : k = handleString s.next_handle_id)
    (hh : s1.open_handles = (k, oh) :: s.open_handles)
    (hn : s1.next_handle_id = s.next_handle_id + 1) :
    HandleInv s1 := by
  intro kv hkv
  rw [hh] at hkv
  rcases List.mem_cons.mp hkv with hkv | hkv
  · subst hkv
    exact ⟨s.next_handle_id, by omega, hk⟩
  · obtain ⟨m, hm, hkm⟩ := hinv kv hkv
    exact ⟨m, by omega, hkm⟩

theorem read_missing (fs : Fs) (s : SftpSession) (id : Nat) (h : String)
    (offset len : Nat)
    (hmiss : lookupHandle s.open_handles h = none) :
    read fs s id h offset len = .error StatusCode.failure := by
  unfold read
  rw [hmiss]

theorem write_missing (fs : Fs) (s : SftpSession) (id : Nat)
    (h : String) (offset : Nat) (data : List Nat)
    (hmiss : lookupHandle s.open_handles h = none) :
    write fs s id h offset data = .error StatusCode.failure := by
  unfold write
  rw [hmiss]

theorem readdir_missing (fs : Fs) (s : SftpSession) (id : Nat)
    (h : String) (hmiss : lookupHandle s.open_handles h = none) :
    readdir fs s id h = .error StatusCode.failure := by
  unfold readdir
  rw [hmiss]

/-- C6.  Within a session, every handle id issued by `open`/`opendir`
is fresh: the counter starts at 1 in a new session, each successful
`open`/`opendir` returns `handle_<counter>` and increments the counter,
and — under the invariant that every existing key stems from an earlier
counter value, which `open`/`opendir` preserve — the issued id is never
one already present, so ids are never reused after being issued.  After
`open` then `close` on the same handle id, a later `read`, `write` or
`readdir` using that id fails as handle-missing (`Failure`), while
`close` itself returns an `Ok` status even when the handle does not
exist (a second `close` of the same id still reports `Ok`). -/
theorem handle_lifecycle (rd : String) (fs fs1 : Fs)
    (s s1 s3 : SftpSession) (id1 id2 id3 id4 : Nat)
    (filename dirpath : String) (pflags : OpenFlags) (hdl hdd : Handle)
    (offset len : Nat) (data : List Nat)
    (hinv : HandleInv s)
    (hopen : openFile fs s id1 filename pflags = .ok (hdl, s1, fs1))
    (hod : opendir fs1 s1 id2 dirpath = .ok (hdd, s3)) :
    (SftpSession.new rd).next_handle_id = 1 ∧
    hdl.handle = handleString s.next_handle_id ∧
    s1.next_handle_id = s.next_handle_id + 1 ∧
    hdd.handle = handleString s1.next_handle_id ∧
    s3.next_handle_id = s1.next_handle_id + 1 ∧
    lookupHandle s.open_handles hdl.handle = none ∧
    lookupHandle s1.open_handles hdd.handle = none ∧
    HandleInv s3 ∧
    (close s3 id3 hdl.handle).1.status_code = StatusCode.ok ∧
    lookupHandle ((close s3 id3 hdl.handle).2).open_handles
      hdl.handle = none ∧
    (close ((close s3 id3 hdl.handle).2) id4 hdl.handle).1.status_code
      = StatusCode.ok ∧
    read fs1 ((close s3 id3 hdl.handle).2) id4 hdl.handle offset len
      = .error StatusCode.failure ∧
    write fs1 ((close s3 id3 hdl.handle).2) id4 hdl.handle offset data
      = .error StatusCode.failure ∧
    readdir fs1 ((close s3 id3 hdl.handle).2) id4 hdl.handle
      = .error StatusCode.failure := by
  obtain ⟨hh1, hn1, pth, hs1⟩ :=
    openFile_ok fs s id1 filename pflags hdl s1 fs1 hopen
  obtain ⟨fp, names, hnp, hld, hh2, hn2, hs3, hlk3⟩ :=
    opendir_ok fs1 s1 id2 dirpath hdd s3 hod
  have hinv1 : HandleInv s1 := HandleInv_cons s s1 _ _ hinv hh1 hs1 hn1
  have hinv3 : HandleInv s3 := HandleInv_cons s1 s3 _ _ hinv1 hh2 hs3 hn2
  have hfresh0 : lookupHandle s.open_handles hdl.handle = none := by
    rw [hh1]
    exact lookupHandle_none_of_fresh s.next_handle_id s.open_handles hinv
  have hfresh1 : lookupHandle s1.open_handles hdd.handle = none := by
    rw [hh2]
    exact lookupHandle_none_of_fresh s1.next_handle_id
      s1.open_handles hinv1
  have hclosed : lookupHandle
      ((close s3 id3 hdl.handle).2).open_handles hdl.handle = none := by
    show lookupHandle (removeHandle s3.open_handles hdl.handle)
      hdl.handle = none
    exact lookupHandle_removeHandle s3.open_handles hdl.handle
  exact ⟨rfl, hh1, hn1, hh2, hn2, hfresh0, hfresh1, hinv3, rfl, hclosed,
    rfl, read_missing _ _ _ _ _ _ hclosed,
    write_missing _ _ _ _ _ _ hclosed, readdir_missing _ _ _ _ hclosed⟩

theorem handle_lifecycle_witness :
    (SftpSession.new "/data").next_handle_id = 1 ∧
    ({ id := 1, handle := "handle_1" } : Handle).handle =
      handleString (SftpSession.new "/data").next_handle_id ∧
    witnessS1.next_handle_id = (SftpSession.new "/data").next_handle_id
      + 1 ∧
    ({ id := 2, handle := "handle_2" } : Handle).handle =
      handleString witnessS1.next_handle_id ∧
    witnessS3.next_handle_id = witnessS1.next_handle_id + 1 ∧
    lookupHandle (SftpSession.new "/data").open_handles "handle_1"
      = none ∧
    lookupHandle witnessS1.open_handles "handle_2" = none ∧
    HandleInv witnessS3 ∧
    (close witnessS3 5 "handle_1").1.status_code = StatusCode.ok ∧
    lookupHandle ((close witnessS3 5 "handle_1").2).open_handles
      "handle_1" = none ∧
    (close ((close witnessS3 5 "handle_1").2) 6 "handle_1").1.status_code
      = StatusCode.ok ∧
    read witnessFs1 ((close witnessS3 5 "handle_1").2) 6 "handle_1" 0 4
      = .error StatusCode.failure ∧
    write witnessFs1 ((close witnessS3 5 "handle_1").2) 6 "handle_1" 0 [9]
      = .error StatusCode.failure ∧
    readdir witnessFs1 ((close witnessS3 5 "handle_1").2) 6 "handle_1"
      = .error StatusCode.failure :=
  handle_lifecycle "/data" sampleDirFs witnessFs1
    (SftpSession.new "/data") witnessS1 witnessS3 1 2 5 6 "f.txt" "/"
    { read := true, write := true, create := true, truncate := false,
      append := false }
    { id := 1, handle := "handle_1" } { id := 2, handle := "handle_2" }
    0 4 [9]
    (by intro kv hkv; simp [SftpSession.new] at hkv)
    (by rfl) (by rfl)

/-! ## Theorems for claims C3, C4, C5, C7, C9 -/

/-- C3 counterexample.  `toggle` with `expiration_days = 0` on a
disabled state yields a state whose expiration is `None`; contrary to
the claim, at every later instant `is_expired` is `false`, the
auto-disable path does not run, and `get_credentials` returns the
credential pair rather than a NotEnabled/Expired error. -/
theorem toggle_zero_days_counterexample :
    ((SftpService.toggle (SftpState.new "/d") 1000 0
        ⟨"u", "p"⟩).1).expiration = none ∧
    ((SftpService.toggle (SftpState.new "/d") 1000 0
        ⟨"u", "p"⟩).1).is_expired 999999999 = false ∧
    (SftpService.get_credentials
        (SftpService.toggle (SftpState.new "/d") 1000 0 ⟨"u", "p"⟩).1
        999999999 2222).1 =
      .ok { username := "u", password := "p", root_directory := "/d",
            port := 2222 } ∧
    (SftpService.get_credentials
        (SftpService.toggle (SftpState.new "/d") 1000 0 ⟨"u", "p"⟩).1
        999999999 2222).2 =
      (SftpService.toggle (SftpState.new "/d") 1000 0 ⟨"u", "p"⟩).1 :=
  ⟨rfl, rfl, rfl, rfl⟩

/-- C3 (amended).  Enabling via `toggle` with `expiration_days = 0`
stores no expiration at all: the resulting state is never treated as
expired by `is_expired`, the auto-disable path does not run, and a
subsequent `get_credentials` returns the credential pair (with the
state unchanged) rather than a NotEnabled/Expired error. -/
theorem toggle_zero_days_never_expires (st : SftpState)
    (now t port : Nat) (c : SftpCredentials) (h : st.enabled = false) :
    ((SftpService.toggle st now 0 c).1).expiration = none ∧
    ((SftpService.toggle st now 0 c).1).is_expired t = false ∧
    (SftpService.get_credentials (SftpService.toggle st now 0 c).1
        t port).1 =
      .ok { username := c.username, password := c.password,
            root_directory := st.root_dir, port } ∧
    (SftpService.get_credentials (SftpService.toggle st now 0 c).1
        t port).2 = (SftpService.toggle st now 0 c).1 := by
  unfold SftpService.toggle SftpService.get_credentials
  simp [h, SftpState.is_enabled, SftpState.enable, SftpState.is_expired,
    SftpState.get_credentials, SftpState.get_root_directory]

theorem toggle_zero_days_never_expires_witness :
    ((SftpService.toggle (SftpState.new "/srv") 42 0
        ⟨"usr", "pw"⟩).1).expiration = none ∧
    ((SftpService.toggle (SftpState.new "/srv") 42 0
        ⟨"usr", "pw"⟩).1).is_expired 77 = false ∧
    (SftpService.get_credentials
        (SftpService.toggle (SftpState.new "/srv") 42 0 ⟨"usr", "pw"⟩).1
        77 22).1 =
      .ok { username := "usr", password := "pw",
            root_directory := "/srv", port := 22 } ∧
    (SftpService.get_credentials
        (SftpService.toggle (SftpState.new "/srv") 42 0 ⟨"usr", "pw"⟩).1
        77 22).2 =
      (SftpService.toggle (SftpState.new "/srv") 42 0 ⟨"usr", "pw"⟩).1 :=
  toggle_zero_days_never_expires (SftpState.new "/srv") 42 77 22
    ⟨"usr", "pw"⟩ rfl

/-- C4 counterexample.  With the state enabled and credentials present
but the bind failing (`bind_ok = false`), the supervisor tick still
installs the spawned task (whose internal failure is only logged) and
leaves the shared state enabled: a failure to bind/start the server
does not force-disable, contrary to the claim. -/
theorem lifecycle_bind_failure_counterexample :
    lifecycle_tick ⟨true, none, some ⟨"u", "p"⟩, "/d"⟩ none 0 false =
      (⟨true, none, some ⟨"u", "p"⟩, "/d"⟩,
        some { task_failed := true }) ∧
    (⟨true, none, some ⟨"u", "p"⟩, "/d"⟩ : SftpState).enabled = true :=
  ⟨rfl, rfl⟩

/-- C4 (amended).  On a tick with the desired state enabled (and not
expired) and no server task running: if no credential pair is present,
`start_server` fails and the supervisor logs and force-disables the
shared state; if a credential pair is present, starting proceeds and the
task is installed — even when `run_sftp_server` subsequently fails
inside the spawned task (e.g. a bind failure), which is only logged
there and does not force-disable.  Starting never proceeds without a
credential pair: its absence is a startup failure, not a silent skip. -/
theorem lifecycle_start_failure (st : SftpState) (now : Nat) (b : Bool)
    (hen : st.enabled = true) (hnx : st.is_expired now = false) :
    (st.credentials = none →
      lifecycle_tick st none now b = (st.disable, none)) ∧
    (st.credentials.isSome = true →
      lifecycle_tick st none now b = (st, some { task_failed := !b })) := by
  constructor
  · intro hc
    unfold lifecycle_tick start_server
    simp [hnx, SftpState.is_enabled, hen, SftpState.get_credentials, hc]
  · intro hc
    obtain ⟨c, hc⟩ := Option.isSome_iff_exists.mp hc
    unfold lifecycle_tick start_server
    simp [hnx, SftpState.is_enabled, hen, SftpState.get_credentials, hc]

theorem lifecycle_start_failure_witness :
    lifecycle_tick ⟨true, none, none, "/d"⟩ none 7 true =
      (SftpState.disable ⟨true, none, none, "/d"⟩, none) :=
  (lifecycle_start_failure ⟨true, none, none, "/d"⟩ 7 true rfl rfl).1 rfl

/-- C5.  Password authentication accepts exactly when the currently
stored credential pair is present and equals the supplied pair; every
other case — no credentials set (server disabled), or a pair matching
only a previously enabled, since-rotated credential pair — is a
rejection; and the verdict is always one of accept/reject (the handler
is total: it never raises an error). -/
theorem auth_password_accept_iff (credentials : Option (String × String))
    (user password : String) :
    (auth_password credentials user password = Auth.accept ↔
      credentials = some (user, password)) ∧
    (auth_password credentials user password = Auth.accept ∨
      auth_password credentials user password = Auth.reject) := by
  constructor
  · cases credentials with
    | none => simp [auth_password]
    | some up =>
      obtain ⟨u, p⟩ := up
      by_cases hm : u = user ∧ p = password
      · simp [auth_password, hm.1, hm.2]
      · simp [auth_password, hm]
  · cases h : auth_password credentials user password
    · exact Or.inl rfl
    · exact Or.inr rfl

/-- C7.  Calling `toggle` while already enabled switches to disabled
(clearing credentials and expiration) and reports disabled with no
credentials; and `disable` is idempotent — applying it to an
already-disabled state (the result of any `disable`) changes nothing
and still reports disabled via `is_enabled`. -/
theorem toggle_enabled_disables (st : SftpState) (now days : Nat)
    (c : SftpCredentials) (h : st.enabled = true) :
    SftpService.toggle st now days c =
      (st.disable,
        { status := "disabled", enabled := false, credentials := none,
          expires_at := none }) ∧
    (st.disable).enabled = false ∧
    (st.disable).credentials = none ∧
    (st.disable).expiration = none ∧
    SftpState.disable (SftpState.disable st) = SftpState.disable st ∧
    (SftpState.disable (SftpState.disable st)).is_enabled = false := by
  unfold SftpService.toggle
  simp [h, SftpState.is_enabled, SftpState.disable]

theorem toggle_enabled_disables_witness :
    SftpService.toggle ⟨true, some 5, some ⟨"u", "p"⟩, "/d"⟩ 100 3
        ⟨"x", "y"⟩ =
      (⟨false, none, none, "/d"⟩,
        { status := "disabled", enabled := false, credentials := none,
          expires_at := none }) :=
  (toggle_enabled_disables ⟨true, some 5, some ⟨"u", "p"⟩, "/d"⟩ 100 3
    ⟨"x", "y"⟩ rfl).1

/-- C9.  `SftpState::enable` is not logically atomic: its three field
writes happen under three separate `RwLock`s (`enableStepsTo` replays
them in program order, and replaying all three agrees with `enable`),
and after the first write alone — a point at which a concurrent reader
such as a status check or an authentication attempt can acquire the
other locks — the observed state has `enabled = true` with
`credentials = none`, the combination the claim says can never be
observed. -/
theorem enable_intermediate_state_observable :
    (∀ (st : SftpState) (c : SftpCredentials) (e : Option Nat),
      enableStepsTo c e st 3 = st.enable c e) ∧
    (enableStepsTo ⟨"u", "p"⟩ (some 5) (SftpState.new "/d") 1).enabled
      = true ∧
    (enableStepsTo ⟨"u", "p"⟩ (some 5) (SftpState.new "/d") 1).credentials
      = none :=
  ⟨fun _ _ _ => rfl, rfl, rfl⟩

end SftpManager
